import Mathlib

/-!
Verification of the reqguard runtime security guard.

Strings from the TypeScript sources are modelled as lists of characters
(abbreviation Str below); JavaScript string equality, length, prefix tests
and slicing correspond to the respective list operations.  Machine numbers
that stay non-negative (lengths, edit distances, thresholds) are modelled
as Nat.

Sections, in order:
  1. SimilarityDetector  (src/utils/levenshtein.ts): the reference edit
     distance, the single-row dynamic program from the source, and the
     proof that they agree whenever the length-difference fast path does
     not fire.
  2. Typosquat detection (src/core/typosquat.ts).
  3. The class policy engine (src/policy/PolicyEngine.ts).
  4. The singleton policy engine (src/core/policy-engine.ts).
  5. The CJS interceptor (src/core/cjs-interceptor.ts): install/restore
     state machine and the behaviour of the patched require wrapper.
  6. The evaluate-based analyzer pipeline (src/index.ts of the
     class-engine variant).
  7. The filesystem shield (src/core/fs-shield.ts).
  8. The network shield (src/core/network-shield.ts).
  9. One theorem per claim, with witnesses and counterexamples.
-/

/-- Characters of a JavaScript string, in order. -/
abbrev Str := List Char

/-! ## Section 1: SimilarityDetector

editDistSpec is the textbook Levenshtein distance, written with the
standard recurrence (insertion, deletion, substitution all cost 1): it is
the mathematical specification, not the source algorithm.  editGo is its
inner structural recursion.  The lemma editDistSpec_eq_levenshtein links
it to Mathlib's levenshtein with the default cost structure. -/


def editGo (x : Char) (f : Str → Nat) : Str → Nat
  | [] => f [] + 1
  | y :: ys => min (1 + f (y :: ys)) (min (1 + editGo x f ys) ((if x = y then 0 else 1) + f ys))

def editDistSpec : Str → Str → Nat
  | [], ys => ys.length
  | x :: xs, ys => editGo x (editDistSpec xs) ys

lemma editDistSpec_nil_left (ys : Str) : editDistSpec [] ys = ys.length := rfl

lemma editDistSpec_nil_right (xs : Str) : editDistSpec xs [] = xs.length := by
  induction xs with
  | nil => rfl
  | cons x xs ih => simp [editDistSpec, editGo] at *; omega

lemma editDistSpec_cons_cons (x y : Char) (xs ys : Str) :
    editDistSpec (x :: xs) (y :: ys) =
      min (1 + editDistSpec xs (y :: ys))
        (min (1 + editDistSpec (x :: xs) ys) ((if x = y then 0 else 1) + editDistSpec xs ys)) := rfl

lemma editDistSpec_self (a : Str) : editDistSpec a a = 0 := by
  induction a with
  | nil => rfl
  | cons x xs ih => rw [editDistSpec_cons_cons]; simp [ih]

lemma editDistSpec_comm_aux : ∀ n a b : _, a.length + b.length ≤ n →
    editDistSpec a b = editDistSpec b a := by
  intro n
  induction n with
  | zero =>
    intro a b h
    match a, b with
    | [], [] => rfl
    | x :: _, _ => simp at h
    | [], y :: _ => simp at h
  | succ n ih =>
    intro a b h
    match a, b with
    | [], b => rw [editDistSpec_nil_left, editDistSpec_nil_right]
    | a, [] => rw [editDistSpec_nil_left, editDistSpec_nil_right]
    | x :: xs, y :: ys =>
      rw [editDistSpec_cons_cons, editDistSpec_cons_cons]
      simp only [List.length_cons] at h
      rw [ih xs (y :: ys) (by simp; omega), ih xs ys (by omega),
          ← ih (x :: xs) ys (by simp; omega)]
      have : (if x = y then 0 else 1) = (if y = x then 0 else 1) := by
        by_cases hxy : x = y <;> simp [hxy, Ne.symm, eq_comm]
      rw [this]
      omega

lemma editDistSpec_comm (a b : Str) : editDistSpec a b = editDistSpec b a :=
  editDistSpec_comm_aux (a.length + b.length) a b le_rfl

lemma dist_length_le_editDistSpec_aux : ∀ n a b : _, a.length + b.length ≤ n →
    Nat.dist a.length b.length ≤ editDistSpec a b := by
  intro n
  induction n with
  | zero =>
    intro a b h
    match a, b with
    | [], [] => simp [Nat.dist]
    | x :: _, _ => simp at h
    | [], y :: _ => simp at h
  | succ n ih =>
    intro a b h
    match a, b with
    | [], b => rw [editDistSpec_nil_left]; simp [Nat.dist]
    | a, [] => rw [editDistSpec_nil_right]; simp [Nat.dist]
    | x :: xs, y :: ys =>
      rw [editDistSpec_cons_cons]
      simp only [List.length_cons] at h ⊢
      have h1 := ih xs (y :: ys) (by simp; omega)
      have h2 := ih (x :: xs) ys (by simp; omega)
      have h3 := ih xs ys (by omega)
      simp only [List.length_cons] at h1 h2 h3
      simp only [Nat.dist] at *
      omega

lemma dist_length_le_editDistSpec (a b : Str) :
    Nat.dist a.length b.length ≤ editDistSpec a b :=
  dist_length_le_editDistSpec_aux (a.length + b.length) a b le_rfl


lemma nat_add_min (k a b : Nat) : k + min a b = min (k + a) (k + b) := by omega

set_option maxHeartbeats 1000000 in
lemma editDistSpec_snoc_snoc_aux : ∀ n (A B : Str) (c s : Char), A.length + B.length ≤ n →
    editDistSpec (A ++ [c]) (B ++ [s]) =
      if c = s then editDistSpec A B
      else 1 + min (editDistSpec (A ++ [c]) B)
        (min (editDistSpec A (B ++ [s])) (editDistSpec A B)) := by
  intro n
  induction n with
  | zero =>
    intro A B c s h
    match A, B with
    | [], [] =>
      simp only [List.nil_append]
      rw [editDistSpec_cons_cons]
      rcases eq_or_ne c s with hcs | hcs
      · subst hcs; simp [editDistSpec]
      · simp [hcs, editDistSpec]
    | x :: _, _ => simp at h
    | [], y :: _ => simp at h
  | succ n ih =>
    intro A B c s h
    match A, B with
    | [], [] =>
      simp only [List.nil_append]
      rw [editDistSpec_cons_cons]
      rcases eq_or_ne c s with hcs | hcs
      · subst hcs; simp [editDistSpec]
      · simp [hcs, editDistSpec]
    | [], y :: ys =>
      have ih1 := ih [] ys c s (by simp at h ⊢; omega)
      simp only [List.nil_append, List.cons_append] at ih1 ⊢
      rw [editDistSpec_cons_cons c y [] (ys ++ [s]), ih1,
          editDistSpec_cons_cons c y [] ys]
      simp only [editDistSpec_nil_left, List.length_append, List.length_cons,
        List.length_nil]
      rcases eq_or_ne c s with hcs | hcs <;> rcases eq_or_ne c y with hcy | hcy
      · simp only [if_pos hcs, if_pos hcy]; omega
      · simp only [if_pos hcs, if_neg hcy]; omega
      · simp only [if_neg hcs, if_pos hcy]; omega
      · simp only [if_neg hcs, if_neg hcy]; omega
    | x :: xs, [] =>
      have ih1 := ih xs [] c s (by simp at h ⊢; omega)
      simp only [List.nil_append, List.cons_append] at ih1 ⊢
      rw [editDistSpec_cons_cons x s (xs ++ [c]) [], ih1,
          editDistSpec_cons_cons x s xs []]
      simp only [editDistSpec_nil_right, List.length_append, List.length_cons,
        List.length_nil]
      rcases eq_or_ne c s with hcs | hcs <;> rcases eq_or_ne x s with hxs | hxs
      · simp only [if_pos hcs, if_pos hxs]; omega
      · simp only [if_pos hcs, if_neg hxs]; omega
      · simp only [if_neg hcs, if_pos hxs]; omega
      · simp only [if_neg hcs, if_neg hxs]; omega
    | x :: xs, y :: ys =>
      have ih1 := ih xs (y :: ys) c s (by simp at h ⊢; omega)
      have ih2 := ih (x :: xs) ys c s (by simp at h ⊢; omega)
      have ih3 := ih xs ys c s (by simp at h; omega)
      simp only [List.cons_append] at ih1 ih2 ih3 ⊢
      rcases eq_or_ne c s with hcs | hcs
      · simp only [if_pos hcs] at ih1 ih2 ih3
        rw [editDistSpec_cons_cons x y (xs ++ [c]) (ys ++ [s]), ih1, ih2, ih3,
            if_pos hcs, editDistSpec_cons_cons x y xs ys]
      · simp only [if_neg hcs] at ih1 ih2 ih3
        rw [editDistSpec_cons_cons x y (xs ++ [c]) (ys ++ [s]), ih1, ih2, ih3,
            if_neg hcs,
            editDistSpec_cons_cons x y (xs ++ [c]) ys,
            editDistSpec_cons_cons x y xs (ys ++ [s]),
            editDistSpec_cons_cons x y xs ys]
        rcases eq_or_ne x y with hxy | hxy
        · simp only [if_pos hxy]
          simp only [zero_add, nat_add_min]
          refine le_antisymm ?_ ?_ <;> simp only [le_min_iff, min_le_iff] <;> omega
        · simp only [if_neg hxy]
          simp only [zero_add, nat_add_min]
          refine le_antisymm ?_ ?_ <;> simp only [le_min_iff, min_le_iff] <;> omega

lemma editDistSpec_snoc_snoc (A B : Str) (c s : Char) :
    editDistSpec (A ++ [c]) (B ++ [s]) =
      if c = s then editDistSpec A B
      else 1 + min (editDistSpec (A ++ [c]) B)
        (min (editDistSpec A (B ++ [s])) (editDistSpec A B)) :=
  editDistSpec_snoc_snoc_aux (A.length + B.length) A B c s le_rfl

def min3src (insertion deletion substitution : Nat) : Nat :=
  if insertion < deletion then (if insertion < substitution then insertion else substitution)
  else (if deletion < substitution then deletion else substitution)

lemma min3src_eq (a b c : Nat) : min3src a b c = min a (min b c) := by
  unfold min3src; split <;> split <;> omega

def innerLoop (longChar : Char) : Str → Nat → Nat → List Nat → List Nat
  | [], _, _, _ => []
  | _ :: _, _, _, [] => []
  | sc :: rest, diag, newPrev, oldj :: oldRest =>
      let v := if longChar = sc then diag else min3src (newPrev + 1) (oldj + 1) (diag + 1)
      v :: innerLoop longChar rest oldj v oldRest

def outerLoop : Str → Str → List Nat → List Nat
  | [], _, row => row
  | c :: cs, short, row =>
      match row with
      | [] => []
      | r0 :: rest => outerLoop cs short ((r0 + 1) :: innerLoop c short r0 (r0 + 1) rest)

def levenshteinTS (a b : Str) : Nat :=
  if a = b then 0
  else if a.length = 0 then b.length
  else if b.length = 0 then a.length
  else
    let short := if a.length ≤ b.length then a else b
    let long := if a.length ≤ b.length then b else a
    if 5 < long.length - short.length then long.length - short.length
    else (outerLoop long short (List.range (short.length + 1))).getLastD 0

def rowFrom (P S₁ : Str) : Str → List Nat
  | [] => []
  | s :: rest => editDistSpec P (S₁ ++ [s]) :: rowFrom P (S₁ ++ [s]) rest

lemma innerLoop_spec (c : Char) (P : Str) : ∀ (S₂ S₁ : Str),
    innerLoop c S₂ (editDistSpec P S₁) (editDistSpec (P ++ [c]) S₁) (rowFrom P S₁ S₂)
      = rowFrom (P ++ [c]) S₁ S₂ := by
  intro S₂
  induction S₂ with
  | nil => intro S₁; rfl
  | cons s rest ih =>
    intro S₁
    show (if c = s then editDistSpec P S₁
        else min3src (editDistSpec (P ++ [c]) S₁ + 1) (editDistSpec P (S₁ ++ [s]) + 1)
          (editDistSpec P S₁ + 1)) ::
        innerLoop c rest (editDistSpec P (S₁ ++ [s]))
          (if c = s then editDistSpec P S₁
            else min3src (editDistSpec (P ++ [c]) S₁ + 1) (editDistSpec P (S₁ ++ [s]) + 1)
              (editDistSpec P S₁ + 1))
          (rowFrom P (S₁ ++ [s]) rest)
      = editDistSpec (P ++ [c]) (S₁ ++ [s]) :: rowFrom (P ++ [c]) (S₁ ++ [s]) rest
    have hv : (if c = s then editDistSpec P S₁
        else min3src (editDistSpec (P ++ [c]) S₁ + 1) (editDistSpec P (S₁ ++ [s]) + 1)
          (editDistSpec P S₁ + 1)) = editDistSpec (P ++ [c]) (S₁ ++ [s]) := by
      rw [editDistSpec_snoc_snoc]
      rcases eq_or_ne c s with hcs | hcs
      · rw [if_pos hcs, if_pos hcs]
      · rw [if_neg hcs, if_neg hcs, min3src_eq]; omega
    rw [hv, ih (S₁ ++ [s])]

lemma outerLoop_spec : ∀ (L P short : Str),
    outerLoop L short (editDistSpec P [] :: rowFrom P [] short)
      = editDistSpec (P ++ L) [] :: rowFrom (P ++ L) [] short := by
  intro L
  induction L with
  | nil => intro P short; simp [outerLoop]
  | cons c cs ih =>
    intro P short
    show outerLoop cs short
        ((editDistSpec P [] + 1) :: innerLoop c short (editDistSpec P []) (editDistSpec P [] + 1)
          (rowFrom P [] short))
      = _
    have h1 : editDistSpec P [] + 1 = editDistSpec (P ++ [c]) [] := by
      rw [editDistSpec_nil_right, editDistSpec_nil_right]; simp
    rw [h1]
    have h2 := innerLoop_spec c P short []
    rw [h2, ih (P ++ [c]) short]
    simp

lemma rowFrom_getLastD (P : Str) : ∀ (S₂ S₁ : Str),
    (rowFrom P S₁ S₂).getLastD (editDistSpec P S₁) = editDistSpec P (S₁ ++ S₂) := by
  intro S₂
  induction S₂ with
  | nil => intro S₁; simp [rowFrom]
  | cons s rest ih =>
    intro S₁
    show (editDistSpec P (S₁ ++ [s]) :: rowFrom P (S₁ ++ [s]) rest).getLastD
        (editDistSpec P S₁) = _
    rw [List.getLastD_cons, ih (S₁ ++ [s])]
    simp

lemma range_eq_row (short : Str) :
    List.range (short.length + 1) = editDistSpec [] [] :: rowFrom [] [] short := by
  have key : ∀ (S₂ S₁ : Str), rowFrom [] S₁ S₂ = List.range' (S₁.length + 1) S₂.length := by
    intro S₂
    induction S₂ with
    | nil => intro S₁; simp [rowFrom]
    | cons s rest ih =>
      intro S₁
      show editDistSpec [] (S₁ ++ [s]) :: rowFrom [] (S₁ ++ [s]) rest = _
      rw [editDistSpec_nil_left, ih (S₁ ++ [s])]
      simp [List.range'_succ]
  rw [key short []]
  show List.range (short.length + 1) = 0 :: List.range' 1 short.length
  rw [List.range_eq_range', List.range'_succ]

lemma dp_result (long short : Str) :
    (outerLoop long short (List.range (short.length + 1))).getLastD 0
      = editDistSpec long short := by
  rw [range_eq_row]
  have h := outerLoop_spec long [] short
  simp only [List.nil_append] at h
  rw [h, List.getLastD_cons, rowFrom_getLastD long short []]
  simp

lemma levenshteinTS_exact (a b : Str) (h : Nat.dist a.length b.length ≤ 5) :
    levenshteinTS a b = editDistSpec a b := by
  simp only [Nat.dist] at h
  unfold levenshteinTS
  dsimp only
  split_ifs with hab ha hb hle hfast hfast
  · rw [hab, editDistSpec_self]
  · rw [List.length_eq_zero.mp ha, editDistSpec_nil_left]
  · rw [List.length_eq_zero.mp hb, editDistSpec_nil_right]
  · omega
  · rw [dp_result b a, editDistSpec_comm]
  · omega
  · rw [dp_result a b]

lemma levenshteinTS_far (a b : Str) (h : 5 < Nat.dist a.length b.length) :
    levenshteinTS a b = Nat.dist a.length b.length := by
  simp only [Nat.dist] at h ⊢
  unfold levenshteinTS
  dsimp only
  split_ifs with hab ha hb hle hfast hfast
  · rw [hab] at h; omega
  · omega
  · omega
  · omega
  · omega
  · omega
  · omega

def isSimilarTS (a b : Str) (threshold : Nat) : Bool :=
  if a = b then true
  else if threshold < Nat.dist a.length b.length then false
  else levenshteinTS a b ≤ threshold

lemma isSimilarTS_exact (a b : Str) (t : Nat) (ht : t ≤ 5) :
    isSimilarTS a b t = true ↔ editDistSpec a b ≤ t := by
  unfold isSimilarTS
  rcases eq_or_ne a b with hab | hab
  · rw [if_pos hab, hab, editDistSpec_self]; simp
  rw [if_neg hab]
  rcases le_or_lt (Nat.dist a.length b.length) t with hd | hd
  · rw [if_neg (by omega), levenshteinTS_exact a b (by omega)]
    simp
  · rw [if_pos hd]
    have := dist_length_le_editDistSpec a b
    constructor
    · intro hc; simp at hc
    · intro hc; omega


/-- Bridge to the canonical library definition: editDistSpec is Mathlib's
Levenshtein distance with the default unit cost structure. -/
lemma editDistSpec_eq_levenshtein (xs ys : Str) :
    editDistSpec xs ys = levenshtein Levenshtein.defaultCost xs ys := by
  induction xs generalizing ys with
  | nil =>
    induction ys with
    | nil => simp [editDistSpec]
    | cons y ys ih =>
      rw [levenshtein_nil_cons]
      simp [editDistSpec] at *
      omega
  | cons x xs ihx =>
    induction ys with
    | nil =>
      rw [levenshtein_cons_nil]
      have h1 : editDistSpec (x :: xs) [] = xs.length + 1 := by
        simpa using editDistSpec_nil_right (x :: xs)
      rw [h1, ← ihx [], editDistSpec_nil_right xs]
      simp [Levenshtein.defaultCost]
      omega
    | cons y ys ihy =>
      rw [levenshtein_cons_cons, editDistSpec_cons_cons, ihx, ihx, ← ihy]
      simp [Levenshtein.defaultCost]

/-! ## Section 2: Typosquat detection (src/core/typosquat.ts)

Package names at this layer are Lean Strings; length, case folding and
list membership mirror the JavaScript operations (the corpus is ASCII, so
String.toLower agrees with JavaScript toLowerCase on every name that can
match). -/

/-- Top 100 NPM package corpus, verbatim from TOP_100_NPM_PACKAGES
(including the duplicated yup entry). -/
def TOP_100_NPM_PACKAGES : List String :=
  ["lodash", "chalk", "request", "commander", "react", "express", "moment",
   "axios", "bluebird", "debug", "async", "uuid", "underscore", "mkdirp",
   "glob", "yargs", "minimist", "semver", "colors", "fs-extra",
   "inquirer", "body-parser", "webpack", "typescript", "eslint",
   "babel-core", "prop-types", "classnames", "rxjs", "jquery", "rimraf",
   "tslib", "cheerio", "dotenv", "qs", "ora", "execa", "yup", "ramda",
   "winston",
   "vue", "react-dom", "next", "mongoose", "socket.io", "nodemon", "pm2",
   "prettier", "jest", "mocha", "chai", "sinon", "supertest", "passport",
   "bcrypt", "jsonwebtoken", "cors", "helmet", "multer", "nodemailer",
   "lodash-es", "date-fns", "dayjs", "immutable", "redux", "mobx",
   "formik", "yup", "zod", "ajv", "nanoid", "shortid", "crypto-js",
   "argon2", "bcryptjs", "cookie-parser", "express-session", "morgan",
   "compression", "serve-static",
   "esbuild", "rollup", "vite", "parcel", "gulp", "grunt", "npm", "yarn",
   "pnpm", "lerna", "nx", "husky", "lint-staged", "commitlint",
   "cypress", "playwright", "puppeteer", "enzyme"]

/-- Threshold for typosquatting detection (TYPOSQUAT_THRESHOLD). -/
def TYPOSQUAT_THRESHOLD : Nat := 3

/-- Result record of checkTyposquat. -/
structure TyposquatResult where
  isSuspicious : Bool
  packageName : String
  similarPackages : List (String × Nat)
  warning : Option String
  deriving DecidableEq

/-- ASCII single quote, used when the source interpolates a name into a
message between quote characters. -/
def squote : String := String.singleton (Char.ofNat 39)

/-- Warning text built for the closest match, as in checkTyposquat. -/
def typosquatWarning (packageName : String) (topMatch : String × Nat) : String :=
  "Package " ++ squote ++ packageName ++ squote ++ " is similar to " ++
    squote ++ topMatch.1 ++ squote ++ " (distance: " ++ toString topMatch.2 ++
    "). Possible typosquatting attempt!"

/-- checkTyposquat from src/core/typosquat.ts: exact corpus hit and
out-of-range length fast paths, then the corpus scan with the
length-difference skip, then a stable ascending sort by distance. -/
def checkTyposquat (packageName : String) : TyposquatResult :=
  if TOP_100_NPM_PACKAGES.contains packageName then
    ⟨false, packageName, [], none⟩
  else if packageName.length < 2 ∨ 50 < packageName.length then
    ⟨false, packageName, [], none⟩
  else
    let similarPackages := TOP_100_NPM_PACKAGES.filterMap (fun popularPkg =>
      if TYPOSQUAT_THRESHOLD < Nat.dist packageName.length popularPkg.length then
        none
      else
        let distance := levenshteinTS packageName.toLower.toList popularPkg.toLower.toList
        if 0 < distance ∧ distance < TYPOSQUAT_THRESHOLD then
          some (popularPkg, distance)
        else none)
    let sorted := similarPackages.mergeSort (fun x y => x.2 ≤ y.2)
    match sorted with
    | [] => ⟨false, packageName, [], none⟩
    | topMatch :: rest => ⟨true, packageName, topMatch :: rest,
        some (typosquatWarning packageName topMatch)⟩

/-! ## Section 3: Class policy engine (src/policy/PolicyEngine.ts)

Module identifiers, rule names and reasons are Str.  The set of built-in
module names is external input from the Node runtime; an engine is
therefore built from a given builtinModules list, exactly as the
constructor does. -/

/-- Global behavior mode of a policy. -/
inductive PolicyMode
  | enforce
  | warn
  | audit
  deriving DecidableEq

/-- Logging levels, in the order silent < error < warn < info < debug. -/
inductive LogLevel
  | silent
  | error
  | warn
  | info
  | debug
  deriving DecidableEq

/-- The action of a policy decision. -/
inductive PolicyAction
  | allow
  | block
  | warn
  | analyze
  deriving DecidableEq

/-- A package rule ( name pattern, optional version and reason ). -/
structure PackageRule where
  name : Str
  version : Option Str := none
  reason : Option Str := none
  deriving DecidableEq

/-- The ReqGuardPolicy configuration shape of src/types/policy.ts, with the
nested packages / builtins / relativeImports / logging groups flattened
into fields. -/
structure ReqGuardPolicy where
  mode : PolicyMode
  packagesAllow : List PackageRule
  packagesBlock : List PackageRule
  packagesWarn : List PackageRule
  builtinsAllow : Bool
  builtinsRestricted : List Str
  relativeImportsAnalyze : Bool
  loggingLevel : LogLevel
  deriving DecidableEq

/-- DEFAULT_POLICY from src/types/policy.ts. -/
def DEFAULT_POLICY : ReqGuardPolicy :=
  ⟨PolicyMode.enforce, [], [], [], true, [], false, LogLevel.warn⟩

/-- Result of evaluating a module against the policy. -/
structure PolicyDecision where
  action : PolicyAction
  reason : Option Str := none
  matchedRule : Option PackageRule := none
  deriving DecidableEq

/-- A constructed class PolicyEngine: the merged policy plus the builtin
name set (builtinSet, kept as a list since only membership is used). -/
structure PolicyEngineState where
  policy : ReqGuardPolicy
  builtinSet : List Str
  deriving DecidableEq

/-- Constructor body: builtinSet holds every builtin name and its
node-prefixed variant. -/
def mkPolicyEngine (builtinModules : List Str) (policy : ReqGuardPolicy) :
    PolicyEngineState :=
  ⟨policy, builtinModules ++ builtinModules.map (fun m => "node:".toList ++ m)⟩

/-- Single quote character, for messages that quote a name. -/
def squoteL : Str := [Char.ofNat 39]

/-- isBuiltin: membership in builtinSet. -/
def isBuiltin (e : PolicyEngineState) (moduleId : Str) : Bool :=
  e.builtinSet.contains moduleId

/-- isRelativeImport: a leading same-directory or parent-directory marker. -/
def isRelativeImport (moduleId : Str) : Bool :=
  "./".toList.isPrefixOf moduleId || "../".toList.isPrefixOf moduleId

/-- extractPackageName: scoped names keep the first two path segments,
otherwise everything before the first separator. -/
def extractPackageName (moduleId : Str) : Str :=
  if moduleId.head? = some '@' then
    let parts := moduleId.splitOn '/'
    if 2 ≤ parts.length then parts.getD 0 [] ++ '/' :: parts.getD 1 []
    else moduleId
  else if moduleId.contains '/' then moduleId.takeWhile (fun c => c ≠ '/')
  else moduleId

/-- matchesPattern: exact match, or a trailing wildcard star matching any
candidate that shares the preceding prefix.  The endsWith test on the
single-character star is modelled through getLast?, and the slice that
removes the final character through dropLast. -/
def matchesPattern (packageName pattern : Str) : Bool :=
  if pattern = packageName then true
  else if pattern.getLast? = some '*' then pattern.dropLast.isPrefixOf packageName
  else false

/-- matchesList: first rule in list order whose pattern matches. -/
def matchesList (packageName : Str) (rules : List PackageRule) :
    Option PackageRule :=
  rules.find? (fun rule => matchesPattern packageName rule.name)

/-- The reason of a matched rule, or the generated default.  (JavaScript
uses rule.reason || default; the empty-string-falsy corner is not
distinguished here.) -/
def reasonOr (rule : PackageRule) (dflt : Str) : Str :=
  match rule.reason with
  | some r => r
  | none => dflt

/-- Strip a node protocol prefix when present (the normalization step
shared by evaluateBuiltin, the singleton extractPackageName and the
interceptor). -/
def normalizeNodePrefix (moduleId : Str) : Str :=
  if "node:".toList.isPrefixOf moduleId then moduleId.drop 5 else moduleId

/-- evaluateBuiltin: restricted check, the global builtin allow flag, then
the explicit allowlist BEFORE the blocklist, then block by default. -/
def evaluateBuiltin (e : PolicyEngineState) (moduleId : Str) : PolicyDecision :=
  let normalized := normalizeNodePrefix moduleId
  if e.policy.builtinsRestricted.contains normalized then
    ⟨PolicyAction.block,
      some ("Built-in ".toList ++ squoteL ++ normalized ++ squoteL ++
        " is restricted by policy".toList), none⟩
  else if e.policy.builtinsAllow then
    ⟨PolicyAction.allow, some "Built-in module".toList, none⟩
  else
    match matchesList normalized e.policy.packagesAllow with
    | some allowMatch =>
        ⟨PolicyAction.allow,
          some (reasonOr allowMatch ("Built-in ".toList ++ squoteL ++ normalized ++
            squoteL ++ " is explicitly allowlisted".toList)), some allowMatch⟩
    | none =>
        match matchesList normalized e.policy.packagesBlock with
        | some blockMatch =>
            ⟨PolicyAction.block,
              some (reasonOr blockMatch ("Built-in ".toList ++ squoteL ++ normalized ++
                squoteL ++ " is blocklisted".toList)), some blockMatch⟩
        | none =>
            ⟨PolicyAction.block,
              some "Built-in modules are disabled by policy".toList, none⟩

/-- evaluate: builtins, then relative imports, then blocklist, allowlist,
warnlist over the extracted root package name, default analyze.  The
resolvedPath argument is accepted and ignored, as in the source. -/
def evaluate (e : PolicyEngineState) (moduleId : Str) (_resolvedPath : Str) :
    PolicyDecision :=
  if isBuiltin e moduleId then evaluateBuiltin e moduleId
  else if isRelativeImport moduleId then
    if ¬ e.policy.relativeImportsAnalyze then
      ⟨PolicyAction.allow, some "Relative import (analysis disabled)".toList, none⟩
    else ⟨PolicyAction.analyze, some "Relative import requires analysis".toList, none⟩
  else
    let packageName := extractPackageName moduleId
    match matchesList packageName e.policy.packagesBlock with
    | some blockMatch =>
        ⟨PolicyAction.block,
          some (reasonOr blockMatch ("Package ".toList ++ squoteL ++ packageName ++
            squoteL ++ " is blocklisted".toList)), some blockMatch⟩
    | none =>
        match matchesList packageName e.policy.packagesAllow with
        | some allowMatch =>
            ⟨PolicyAction.allow,
              some (reasonOr allowMatch ("Package ".toList ++ squoteL ++ packageName ++
                squoteL ++ " is allowlisted".toList)), some allowMatch⟩
        | none =>
            match matchesList packageName e.policy.packagesWarn with
            | some warnMatch =>
                ⟨PolicyAction.warn,
                  some (reasonOr warnMatch ("Package ".toList ++ squoteL ++ packageName ++
                    squoteL ++ " requires review".toList)), some warnMatch⟩
            | none =>
                ⟨PolicyAction.analyze,
                  some "No explicit rule, requires analysis".toList, none⟩

/-! ## Section 4: Singleton policy engine (src/core/policy-engine.ts) -/

/-- Modelled from the spec: the SecurityError class (src/core/SecurityError.ts
is not part of the provided sources).  Per the spec it is a distinguishable
error kind carrying a human-readable message and a stable code; only the
message varies, so it is the one field carried here. -/
structure SecurityErr where
  message : Str
  deriving DecidableEq

/-- DANGEROUS_BUILTINS, the hard-coded always-dangerous built-ins. -/
def DANGEROUS_BUILTINS : List Str :=
  ["child_process".toList, "vm".toList, "worker_threads".toList]

/-- The flat PolicyConfig shape of the singleton engine. -/
structure PolicyConfig where
  mode : PolicyMode
  allowDangerousBuiltins : Bool
  blocklist : List Str
  allowlist : List Str
  logLevel : LogLevel
  deriving DecidableEq

/-- DEFAULT_CONFIG of the singleton engine. -/
def DEFAULT_CONFIG : PolicyConfig :=
  ⟨PolicyMode.enforce, false, [], [], LogLevel.warn⟩

/-- A constructed singleton engine: configuration plus the four lookup sets
built by the constructor (kept as lists; only membership is used). -/
structure SingletonEngine where
  config : PolicyConfig
  builtinSet : List Str
  allowSet : List Str
  blockSet : List Str
  dangerousSet : List Str
  deriving DecidableEq

/-- Constructor body of the singleton PolicyEngine. -/
def mkSingletonEngine (builtinModules : List Str) (config : PolicyConfig) :
    SingletonEngine :=
  ⟨config,
    builtinModules ++ builtinModules.map (fun m => "node:".toList ++ m),
    config.allowlist,
    config.blocklist,
    DANGEROUS_BUILTINS ++ DANGEROUS_BUILTINS.map (fun m => "node:".toList ++ m)⟩

/-- Numeric index of a level in the ordered levels array
silent, error, warn, info, debug. -/
def levelIndex : LogLevel → Nat
  | LogLevel.silent => 0
  | LogLevel.error => 1
  | LogLevel.warn => 2
  | LogLevel.info => 3
  | LogLevel.debug => 4

/-- One emitted console call: its level and the message passed to log
(the fixed console decoration around the message is formatting and is not
modelled). -/
structure LogEvent where
  level : LogLevel
  message : Str
  deriving DecidableEq

/-- The private log method: a console call is emitted only when the message
level is within the configured level and the configured level is not
silent. -/
def singletonLog (config : PolicyConfig) (level : LogLevel) (message : Str) :
    List LogEvent :=
  if levelIndex level ≤ levelIndex config.logLevel ∧ 0 < levelIndex config.logLevel
  then [⟨level, message⟩] else []

/-- extractPackageName of the singleton engine: unlike the class engine, it
first strips a node protocol prefix. -/
def extractPackageNameS (moduleId : Str) : Str :=
  let normalized := normalizeNodePrefix moduleId
  if normalized.head? = some '@' then
    let parts := normalized.splitOn '/'
    if 2 ≤ parts.length then parts.getD 0 [] ++ '/' :: parts.getD 1 []
    else normalized
  else if normalized.contains '/' then normalized.takeWhile (fun c => c ≠ '/')
  else normalized

/-- handleBlock: enforce throws a SecurityError; warn logs at warn level and
returns false; audit logs at info level and returns true. -/
def handleBlock (e : SingletonEngine) (request : Str) (reason : Str) :
    Except SecurityErr Bool × List LogEvent :=
  match e.config.mode with
  | PolicyMode.enforce => (Except.error ⟨reason⟩, [])
  | PolicyMode.warn =>
      (Except.ok false,
        singletonLog e.config LogLevel.warn
          ("BLOCKED: ".toList ++ request ++ " - ".toList ++ reason))
  | PolicyMode.audit =>
      (Except.ok true,
        singletonLog e.config LogLevel.info
          ("AUDIT: ".toList ++ request ++ " - ".toList ++ reason))

/-- check of the singleton engine, with its fast paths in source order:
relative imports, the allowlist (checked first), dangerous built-ins,
the blocklist, regular built-ins, then a default allow. -/
def check (e : SingletonEngine) (request : Str) :
    Except SecurityErr Bool × List LogEvent :=
  if isRelativeImport request then (Except.ok true, [])
  else
    let packageName := extractPackageNameS request
    if e.allowSet.contains packageName || e.allowSet.contains request then
      (Except.ok true, [])
    else if (e.dangerousSet.contains request || e.dangerousSet.contains packageName)
        ∧ ¬ e.config.allowDangerousBuiltins then
      handleBlock e request
        ("Dangerous built-in ".toList ++ squoteL ++ packageName ++ squoteL ++
          " is blocked by default".toList)
    else if e.blockSet.contains packageName || e.blockSet.contains request then
      handleBlock e request
        ("Package ".toList ++ squoteL ++ packageName ++ squoteL ++
          " is explicitly blocked".toList)
    else if e.builtinSet.contains request then (Except.ok true, [])
    else (Except.ok true, [])

/-! ## Section 5: CJS interceptor (src/core/cjs-interceptor.ts) -/

/-- The module-level state the interceptor mutates: the require slot on
Module.prototype, the captured original, the hooked and reentrancy flags
and the optional analyzer callback.  The handler and analyzer types are
abstract. -/
structure ModuleRuntime (H A : Type) where
  requireSlot : H
  originalRequire : Option H
  isHooked : Bool
  isChecking : Bool
  analyzerCallback : Option A

/-- hookRequire: when already hooked only the analyzer may be updated;
otherwise the analyzer is stored if provided, the current require slot is
captured as originalRequire and the patched wrapper is installed. -/
def hookRequire {H A : Type} (patched : H) (analyzer : Option A)
    (s : ModuleRuntime H A) : ModuleRuntime H A :=
  if s.isHooked then
    { s with analyzerCallback :=
        match analyzer with
        | some a => some a
        | none => s.analyzerCallback }
  else
    { requireSlot := patched,
      originalRequire := some s.requireSlot,
      isHooked := true,
      isChecking := s.isChecking,
      analyzerCallback :=
        match analyzer with
        | some a => some a
        | none => s.analyzerCallback }

/-- restoreRequire: only when hooked and an original was captured, the
original is written back and all interceptor state is cleared. -/
def restoreRequire {H A : Type} (s : ModuleRuntime H A) : ModuleRuntime H A :=
  match s.originalRequire with
  | some orig =>
      if s.isHooked then
        { requireSlot := orig,
          originalRequire := none,
          isHooked := false,
          isChecking := s.isChecking,
          analyzerCallback := none }
      else s
  | none => s

/-- What can be thrown by an analyzer callback: a SecurityError or any
other error. -/
inductive ThrownKind
  | securityErr (message : Str)
  | plainErr (message : Str)
  deriving DecidableEq

/-- How one invocation of the patched require completes. -/
inductive ReqOutcome
  | forwarded
  | threw (e : SecurityErr)
  deriving DecidableEq

/-- Observable trace of one patched-require invocation: whether the
singleton policy check ran, whether the analyzer ran (and whether the
reentrancy flag was set while it ran, as it is in the source where the
flag is raised before the check and lowered in the finally block), the
completion, the emitted log calls and the flag value after return. -/
structure RequireTrace where
  policyChecked : Bool
  analyzerRan : Bool
  analyzerRanWithFlagSet : Bool
  outcome : ReqOutcome
  logs : List LogEvent
  finalChecking : Bool
  deriving DecidableEq

/-- An analyzer callback, as observed by the wrapper: from the (node-prefix
stripped) module id it produces log calls and optionally throws.  Path
resolution for the analyzer argument is modelled as succeeding. -/
def AnalyzerFn : Type := Str → List LogEvent × Option ThrownKind

/-- The body of patchedRequire: reentrancy guard, relative-import fast
path (the source inlines the same two startsWith tests that
isRelativeImport spells), singleton check (a false result is turned into a thrown
SecurityError even in non-enforce modes), then the optional analyzer whose
non-SecurityError exceptions are swallowed. -/
def runPatchedRequire (e : SingletonEngine) (analyzer : Option AnalyzerFn)
    (isChecking : Bool) (id : Str) : RequireTrace :=
  if isChecking then
    ⟨false, false, false, ReqOutcome.forwarded, [], isChecking⟩
  else if isRelativeImport id then
    ⟨false, false, false, ReqOutcome.forwarded, [], isChecking⟩
  else
    let moduleId := normalizeNodePrefix id
    match check e id with
    | (Except.error err, lgs) =>
        ⟨true, false, false, ReqOutcome.threw err, lgs, false⟩
    | (Except.ok false, lgs) =>
        ⟨true, false, false,
          ReqOutcome.threw ⟨"Module ".toList ++ squoteL ++ id ++ squoteL ++
            " is blocked by security policy".toList⟩, lgs, false⟩
    | (Except.ok true, lgs) =>
        match analyzer with
        | none => ⟨true, false, false, ReqOutcome.forwarded, lgs, false⟩
        | some f =>
            match f moduleId with
            | (alogs, some (ThrownKind.securityErr m)) =>
                ⟨true, true, true, ReqOutcome.threw ⟨m⟩, lgs ++ alogs, false⟩
            | (alogs, some (ThrownKind.plainErr _)) =>
                ⟨true, true, true, ReqOutcome.forwarded, lgs ++ alogs, false⟩
            | (alogs, none) =>
                ⟨true, true, true, ReqOutcome.forwarded, lgs ++ alogs, false⟩

/-! ## Section 6: The evaluate-based pipeline (src/index.ts, class engine)

init of that entry point installs, through hookRequire, an analyzer that
evaluates the module against the class PolicyEngine and applies mode
semantics: a block decision is logged at error level and aborts only in
enforce mode (by a plain Error with the reqguard prefix). -/

/-- The leveled log helper of src/index.ts (same filtering rule as the
singleton log). -/
def indexLog (policy : ReqGuardPolicy) (level : LogLevel) (message : Str) :
    List LogEvent :=
  if levelIndex level ≤ levelIndex policy.loggingLevel ∧
      0 < levelIndex policy.loggingLevel
  then [⟨level, message⟩] else []

/-- The reason text interpolated into messages (evaluate always sets a
reason). -/
def reasonText (d : PolicyDecision) : Str := d.reason.getD []

/-- The analyzer callback installed by init: evaluate, then log and
optionally throw according to the decision action and the mode. -/
def indexAnalyzer (e : PolicyEngineState) : AnalyzerFn := fun moduleId =>
  let decision := evaluate e moduleId []
  match decision.action with
  | PolicyAction.block =>
      (indexLog e.policy LogLevel.error
        ("BLOCKED: ".toList ++ moduleId ++ " - ".toList ++ reasonText decision),
        if e.policy.mode = PolicyMode.enforce then
          some (ThrownKind.plainErr
            ("[reqguard] Blocked: ".toList ++ moduleId ++ " - ".toList ++
              reasonText decision))
        else none)
  | PolicyAction.warn =>
      (indexLog e.policy LogLevel.warn
        ("WARNING: ".toList ++ moduleId ++ " - ".toList ++ reasonText decision),
        none)
  | PolicyAction.analyze =>
      (indexLog e.policy LogLevel.debug
        ("ANALYZE: ".toList ++ moduleId ++ " (no explicit rule)".toList), none)
  | PolicyAction.allow =>
      (indexLog e.policy LogLevel.debug ("ALLOWED: ".toList ++ moduleId), none)

/-! ## Section 7: Filesystem shield (src/core/fs-shield.ts) -/

/-- Lowercasing of a Str (the blocked rules and candidate paths are ASCII,
where Char.toLower agrees with JavaScript toLowerCase). -/
def lowerStr (s : Str) : Str := s.map Char.toLower

/-- A path-or-descriptor argument of the patched fs entry points: a string,
a Buffer (read as its utf8 text), a URL (its pathname is what the check
uses) or a numeric file descriptor. -/
inductive FsPathInput
  | str (s : Str)
  | buf (contents : Str)
  | url (pathname : Str)
  | fd (n : Nat)
  deriving DecidableEq

/-- BLOCKED_FILENAMES, verbatim. -/
def BLOCKED_FILENAMES : List Str :=
  [".env".toList, ".env.local".toList, ".env.production".toList,
    ".env.development".toList, "id_rsa".toList, "id_ed25519".toList,
    "id_ecdsa".toList, "id_dsa".toList]

/-- BLOCKED_PATH_PATTERNS, verbatim (three of them spell a backslash). -/
def BLOCKED_PATH_PATTERNS : List Str :=
  [".ssh/".toList, "/.ssh/".toList, "\\.ssh\\".toList, "/etc/passwd".toList,
    "/etc/shadow".toList, "/etc/hosts".toList, "\\etc\\passwd".toList]

/-- BLOCKED_SUFFIXES, verbatim. -/
def BLOCKED_SUFFIXES : List Str :=
  [".pem".toList, ".key".toList, "_rsa".toList, "_ed25519".toList]

/-- JavaScript String.includes, on character lists: does sub occur as a
contiguous substring. -/
def listIncludes (sub : Str) : Str → Bool
  | [] => sub.isEmpty
  | c :: rest => sub.isPrefixOf (c :: rest) || listIncludes sub rest

/-- The string the check runs on, when the input is path-like. -/
def fsPathString : FsPathInput → Option Str
  | FsPathInput.str s => some s
  | FsPathInput.buf s => some s
  | FsPathInput.url pn => some pn
  | FsPathInput.fd _ => none

/-- Path normalization of isBlockedPath: backslashes to slashes, then
lowercase. -/
def normalizePath (p : Str) : Str :=
  lowerStr (p.map (fun c => if c = '\\' then '/' else c))

/-- Model of Node path.basename on a slash-separated path: drop trailing
separators, then take the final component. -/
def basenameOf (p : Str) : Str :=
  let t := (p.reverse.dropWhile (fun c => c = '/')).reverse
  (t.reverse.takeWhile (fun c => c ≠ '/')).reverse

/-- isBlockedPath: numeric descriptors are never blocked; otherwise the
normalized path is checked against exact blocked filenames, contained
blocked patterns, and blocked suffixes. -/
def isBlockedPath (filePath : FsPathInput) : Bool :=
  match fsPathString filePath with
  | none => false
  | some pathStr =>
    let normalizedPath := normalizePath pathStr
    let basename := basenameOf normalizedPath
    if BLOCKED_FILENAMES.contains basename then true
    else if BLOCKED_PATH_PATTERNS.any
        (fun pattern => listIncludes (lowerStr pattern) normalizedPath) then true
    else if BLOCKED_SUFFIXES.any
        (fun suffix => suffix.isSuffixOf normalizedPath) then true
    else false

/-- The SecurityError raised for a blocked file access (a URL argument is
represented by its pathname in the message as well). -/
def createBlockedFileError (filePath : FsPathInput) : SecurityErr :=
  let pathStr :=
    match filePath with
    | FsPathInput.fd n => "fd:".toList ++ (toString n).toList
    | FsPathInput.str s => s
    | FsPathInput.buf s => s
    | FsPathInput.url pn => pn
  ⟨"Access to sensitive file ".toList ++ squoteL ++ pathStr ++ squoteL ++
    " is blocked".toList⟩

/-- How one invocation of a patched shield entry point completes: forwarded
to the original, a synchronous throw, an error handed to the callback
during the call itself, or an error handed to the callback on a later tick
through the scheduler (process.nextTick). -/
inductive CallOutcome
  | forwardedToOriginal
  | syncThrow (e : SecurityErr)
  | callbackNow (e : SecurityErr)
  | callbackDeferred (e : SecurityErr)
  deriving DecidableEq

/-- patchedReadFileSync. -/
def patchedReadFileSync (filePath : FsPathInput) : CallOutcome :=
  if isBlockedPath filePath then CallOutcome.syncThrow (createBlockedFileError filePath)
  else CallOutcome.forwardedToOriginal

/-- patchedReadFile (callback style): a blocked path with a callback gets
the error delivered through process.nextTick, hence on a later tick. -/
def patchedReadFile (filePath : FsPathInput) (hasCallback : Bool) : CallOutcome :=
  if isBlockedPath filePath then
    if hasCallback then CallOutcome.callbackDeferred (createBlockedFileError filePath)
    else CallOutcome.syncThrow (createBlockedFileError filePath)
  else CallOutcome.forwardedToOriginal

/-- patchedOpenSync. -/
def patchedOpenSync (filePath : FsPathInput) : CallOutcome :=
  if isBlockedPath filePath then CallOutcome.syncThrow (createBlockedFileError filePath)
  else CallOutcome.forwardedToOriginal

/-- patchedOpen (callback style), same deferral as patchedReadFile. -/
def patchedOpen (filePath : FsPathInput) (hasCallback : Bool) : CallOutcome :=
  if isBlockedPath filePath then
    if hasCallback then CallOutcome.callbackDeferred (createBlockedFileError filePath)
    else CallOutcome.syncThrow (createBlockedFileError filePath)
  else CallOutcome.forwardedToOriginal

/-- The first argument of the promise-based readFile: an already-open
FileHandle (an object carrying an fd property) or a path-like value. -/
inductive PromisesReadFileInput
  | fileHandle (fd : Nat)
  | pathlike (p : FsPathInput)
  deriving DecidableEq

/-- How a patched promise-based entry point completes. -/
inductive PromiseOutcome
  | forwardedToOriginal
  | rejected (e : SecurityErr)
  deriving DecidableEq

/-- patchedPromisesReadFile: FileHandle arguments are forwarded without any
check; path-like arguments go through isBlockedPath. -/
def patchedPromisesReadFile (path : PromisesReadFileInput) : PromiseOutcome :=
  match path with
  | PromisesReadFileInput.fileHandle _ => PromiseOutcome.forwardedToOriginal
  | PromisesReadFileInput.pathlike p =>
      if isBlockedPath p then PromiseOutcome.rejected (createBlockedFileError p)
      else PromiseOutcome.forwardedToOriginal

/-! ## Section 8: Network shield (src/core/network-shield.ts) -/

/-- BLOCKED_IPS, verbatim. -/
def BLOCKED_IPS : List Str :=
  ["169.254.169.254".toList, "169.254.170.2".toList, "fd00:ec2::254".toList]

/-- BLOCKED_HOSTS, verbatim. -/
def BLOCKED_HOSTS : List Str :=
  ["metadata.google.internal".toList, "metadata.gcp.internal".toList]

/-- isBlockedAddress: exact blocked IPs, blocked hostnames
(case-insensitive), the link-local IPv4 range, its IPv6-mapped form, and
the IPv6 link-local range. -/
def isBlockedAddress (address : Str) : Bool :=
  if BLOCKED_IPS.contains address then true
  else if BLOCKED_HOSTS.contains (lowerStr address) then true
  else if "169.254.".toList.isPrefixOf address then true
  else if "::ffff:169.254.".toList.isPrefixOf (lowerStr address) then true
  else if "fe80::".toList.isPrefixOf (lowerStr address) then true
  else false

/-- patchedLookup: for a blocked hostname with a callback, the source
invokes the callback with the SecurityError directly inside the call (no
scheduling deferral); without a callback it throws synchronously. -/
def patchedLookup (hostname : Str) (hasCallback : Bool) : CallOutcome :=
  if isBlockedAddress hostname then
    if hasCallback then
      CallOutcome.callbackNow
        ⟨"DNS lookup for ".toList ++ squoteL ++ hostname ++ squoteL ++
          " is blocked (cloud metadata endpoint)".toList⟩
    else
      CallOutcome.syncThrow
        ⟨"DNS lookup for ".toList ++ squoteL ++ hostname ++ squoteL ++
          " is blocked".toList⟩
  else CallOutcome.forwardedToOriginal

/-- Equality of check results is decidable (needed to evaluate concrete
scenarios). -/
instance : DecidableEq (Except SecurityErr Bool) := fun a b =>
  match a, b with
  | Except.ok x, Except.ok y => decidable_of_iff (x = y) (by simp)
  | Except.error x, Except.error y => decidable_of_iff (x = y) (by simp)
  | Except.ok _, Except.error _ => isFalse (by simp)
  | Except.error _, Except.ok _ => isFalse (by simp)

/-! ## Section 9: Claims -/

/-- C4, counterexample.  The claim says the length-difference fast path of
levenshtein fires as soon as the difference exceeds the similarity
threshold 3 and then the function returns exactly the difference.  For
aaaa versus bbbbbbbb the difference is 4 (above 3), yet the function runs
the dynamic program and returns 8, not 4: the fast path cutoff in the
source is 5, not the threshold 3. -/
theorem claim_C4_counterexample :
    3 < Nat.dist ("aaaa".toList).length ("bbbbbbbb".toList).length ∧
    levenshteinTS "aaaa".toList "bbbbbbbb".toList ≠
      Nat.dist ("aaaa".toList).length ("bbbbbbbb".toList).length := by
  decide

/-- C4, amended.  For every pair of strings whose length difference exceeds
5 (the constant actually used by the source fast path, not the similarity
threshold 3), levenshtein returns exactly the length difference; the fast
paths before it (identical strings give 0, an empty string gives the other
length) agree with this value on their own inputs, so the equation holds
unconditionally whenever the difference exceeds 5. -/
theorem claim_C4 (a b : Str) (h : 5 < Nat.dist a.length b.length) :
    levenshteinTS a b = Nat.dist a.length b.length :=
  levenshteinTS_far a b h

/-- C4, witness at ab versus bbbbbbbbbb (length difference 8). -/
theorem claim_C4_witness :
    5 < Nat.dist ("ab".toList).length ("bbbbbbbbbb".toList).length ∧
    levenshteinTS "ab".toList "bbbbbbbbbb".toList =
      Nat.dist ("ab".toList).length ("bbbbbbbbbb".toList).length :=
  ⟨by decide, claim_C4 "ab".toList "bbbbbbbbbb".toList (by decide)⟩

/-- C5, counterexample.  At threshold 6, isSimilar for a versus bbbbbbb
returns true, but the true edit distance is 7 > 6: the length-difference
guard (6 is not above the threshold) lets the call through to levenshtein,
whose internal fast path fires (difference above 5) and returns the length
difference 6, an underestimate of the true distance. -/
theorem claim_C5_counterexample :
    isSimilarTS "a".toList "bbbbbbb".toList 6 = true ∧
    ¬ editDistSpec "a".toList "bbbbbbb".toList ≤ 6 := by
  decide

/-- C5, amended.  isSimilar always short-circuits to false when the length
difference exceeds the threshold (a mathematically correct answer), and
for every threshold at most 5 the result equals the mathematically correct
boolean (distance at most threshold); for thresholds of 6 and above the
internal length-difference fast path of levenshtein can make isSimilar
report true although the true distance exceeds the threshold. -/
theorem claim_C5 :
    (∀ (a b : Str) (t : Nat), t < Nat.dist a.length b.length →
      isSimilarTS a b t = false) ∧
    (∀ (a b : Str) (t : Nat), t ≤ 5 →
      (isSimilarTS a b t = true ↔ editDistSpec a b ≤ t)) := by
  constructor
  · intro a b t h
    unfold isSimilarTS
    split_ifs with h1
    · subst h1; simp [Nat.dist] at h
    · rfl
  · intro a b t ht
    exact isSimilarTS_exact a b t ht

/-- C5, witness: the short-circuit at threshold 2 for a versus bbbb, and
exactness at threshold 1 for lodas versus lodash (distance 1). -/
theorem claim_C5_witness :
    (2 < Nat.dist ("a".toList).length ("bbbb".toList).length ∧
      isSimilarTS "a".toList "bbbb".toList 2 = false) ∧
    ((1 : Nat) ≤ 5 ∧
      (isSimilarTS "lodas".toList "lodash".toList 1 = true ↔
        editDistSpec "lodas".toList "lodash".toList ≤ 1)) :=
  ⟨⟨by decide, claim_C5.1 "a".toList "bbbb".toList 2 (by decide)⟩,
    ⟨by decide, claim_C5.2 "lodas".toList "lodash".toList 1 (by decide)⟩⟩

/-- C9.  For a rule name that is a prefix followed by the wildcard star,
matchesPattern accepts exactly the candidates that start with the prefix:
the exact-boundary candidate (equal to the prefix) is accepted, a strict
prefix of the prefix is rejected, and the scoped form is the same equation
with a scope-and-slash prefix. -/
theorem claim_C9 (p candidate : Str) :
    matchesPattern candidate (p ++ ['*']) = true ↔ p <+: candidate := by
  unfold matchesPattern
  split_ifs with h1 h2
  · simp only [true_iff]
    exact h1 ▸ List.prefix_append p ['*']
  · rw [List.dropLast_concat]
    exact List.isPrefixOf_iff_prefix
  · exact absurd (List.getLast?_concat p) h2

/-- C9, witness instances at the boundary, a strict-prefix near miss and
the scoped form. -/
theorem claim_C9_witness :
    matchesPattern "lodash".toList ("lodash".toList ++ ['*']) = true ∧
    ¬ matchesPattern "lodas".toList ("lodash".toList ++ ['*']) = true ∧
    matchesPattern "@scope/foo".toList ("@scope/".toList ++ ['*']) = true :=
  ⟨(claim_C9 "lodash".toList "lodash".toList).mpr (by decide),
    fun hc => (by decide : ¬ "lodash".toList <+: "lodas".toList)
      ((claim_C9 "lodash".toList "lodas".toList).mp hc),
    (claim_C9 "@scope/".toList "@scope/foo".toList).mpr (by decide)⟩

/-- C10.  A candidate name shorter than 2 or longer than 50 characters is
never reported: checkTyposquat returns not-suspicious with an empty
similar-package list before the corpus scan, even for names within edit
distance 1 of a corpus entry. -/
theorem claim_C10 (name : String) (h : name.length < 2 ∨ 50 < name.length) :
    (checkTyposquat name).isSuspicious = false ∧
    (checkTyposquat name).similarPackages = [] := by
  unfold checkTyposquat
  split_ifs with h1
  · exact ⟨rfl, rfl⟩
  · exact ⟨rfl, rfl⟩

/-- C10, witness: the one-character name n is one edit from the corpus
entry nx, yet is not reported. -/
theorem claim_C10_witness :
    ((checkTyposquat "n").isSuspicious = false ∧
      (checkTyposquat "n").similarPackages = []) ∧
    editDistSpec "n".toList "nx".toList = 1 :=
  ⟨claim_C10 "n" (Or.inl (by decide)), by decide⟩

/-- C1, counterexample.  With builtins disabled and the same name fs in
both the allow and the block package lists, evaluating the built-in
specifier fs yields allow, not block: evaluateBuiltin consults the
allowlist before the blocklist.  Likewise the singleton check() with os in
both its allowlist and blocklist returns true (allow): its allowlist is
checked first. -/
theorem claim_C1_counterexample :
    (evaluate
        (mkPolicyEngine ["fs".toList]
          ⟨PolicyMode.enforce, [⟨"fs".toList, none, none⟩],
            [⟨"fs".toList, none, some "blocked for testing".toList⟩], [],
            false, [], false, LogLevel.warn⟩)
        "fs".toList []).action = PolicyAction.allow ∧
    (evaluate
        (mkPolicyEngine ["fs".toList]
          ⟨PolicyMode.enforce, [⟨"fs".toList, none, none⟩],
            [⟨"fs".toList, none, some "blocked for testing".toList⟩], [],
            false, [], false, LogLevel.warn⟩)
        "fs".toList []).action ≠ PolicyAction.block ∧
    (check
        (mkSingletonEngine ["os".toList]
          ⟨PolicyMode.enforce, false, ["os".toList], ["os".toList], LogLevel.warn⟩)
        "os".toList).1 = Except.ok true := by
  decide

/-- C1, amended.  On the non-builtin, non-relative package path of
evaluate, a matching block rule decides the outcome regardless of the
allow rules and of list order (block outranks allow there).  But when the
specifier is a built-in and builtins are disabled, an allowlist match for
the (node-prefix-normalized) name is consulted before the blocklist and
yields allow; and the singleton check() consults its allowlist before
every block source, returning allow for a name present in both lists. -/
theorem claim_C1 :
    (∀ (e : PolicyEngineState) (m rp : Str) (r : PackageRule),
      isBuiltin e m = false → isRelativeImport m = false →
      matchesList (extractPackageName m) e.policy.packagesBlock = some r →
      (evaluate e m rp).action = PolicyAction.block) ∧
    (∀ (e : PolicyEngineState) (m rp : Str) (r : PackageRule),
      isBuiltin e m = true →
      normalizeNodePrefix m ∉ e.policy.builtinsRestricted →
      e.policy.builtinsAllow = false →
      matchesList (normalizeNodePrefix m) e.policy.packagesAllow = some r →
      (evaluate e m rp).action = PolicyAction.allow) ∧
    (∀ (e : SingletonEngine) (request : Str),
      isRelativeImport request = false →
      extractPackageNameS request ∈ e.allowSet ∨ request ∈ e.allowSet →
      check e request = (Except.ok true, [])) := by
  refine ⟨?_, ?_, ?_⟩
  · intro e m rp r hb hr hm
    simp [evaluate, hb, hr, hm]
  · intro e m rp r hb hrestr hallow hm
    simp [evaluate, evaluateBuiltin, hb, hrestr, hallow, hm]
  · intro e request hr hallow
    rcases hallow with h | h <;> simp [check, hr, h]

/-- C1, witness: the package path blocks evil-pkg though it is also
allowlisted; the builtin path allows fs; the singleton allows os. -/
theorem claim_C1_witness :
    (evaluate
        (mkPolicyEngine []
          ⟨PolicyMode.enforce, [⟨"evil-pkg".toList, none, none⟩],
            [⟨"evil-pkg".toList, none, none⟩], [], true, [], false, LogLevel.warn⟩)
        "evil-pkg".toList []).action = PolicyAction.block ∧
    (evaluate
        (mkPolicyEngine ["fs".toList]
          ⟨PolicyMode.enforce, [⟨"fs".toList, none, none⟩],
            [⟨"fs".toList, none, some "blocked for testing".toList⟩], [],
            false, [], false, LogLevel.warn⟩)
        "fs".toList []).action = PolicyAction.allow ∧
    check
        (mkSingletonEngine ["os".toList]
          ⟨PolicyMode.enforce, false, ["os".toList], ["os".toList], LogLevel.warn⟩)
        "os".toList = (Except.ok true, []) :=
  ⟨claim_C1.1 _ "evil-pkg".toList [] ⟨"evil-pkg".toList, none, none⟩
      (by decide) (by decide) (by decide),
    claim_C1.2.1 _ "fs".toList [] ⟨"fs".toList, none, none⟩
      (by decide) (by decide) (by decide) (by decide),
    claim_C1.2.2 _ "os".toList (by decide) (by decide)⟩

/-- In every branch of the patched require, the analyzer runs with the
reentrancy flag set or does not run at all: the two trace fields agree. -/
lemma analyzerRan_flag (e : SingletonEngine) (a : Option AnalyzerFn)
    (chk : Bool) (id : Str) :
    (runPatchedRequire e a chk id).analyzerRanWithFlagSet =
      (runPatchedRequire e a chk id).analyzerRan := by
  unfold runPatchedRequire
  dsimp only
  repeat first | rfl | split

/-- C7.  A mediated call arriving while the reentrancy flag is set forwards
directly to the original handler: no policy evaluation, no analyzer
invocation, no log, and the flag is left as found.  Moreover, whenever the
analyzer does run, it runs with the flag set, so a require issued from
inside the analyzer callback takes exactly that guarded fast path. -/
theorem claim_C7 :
    (∀ (e : SingletonEngine) (analyzer : Option AnalyzerFn) (id : Str),
      runPatchedRequire e analyzer true id =
        ⟨false, false, false, ReqOutcome.forwarded, [], true⟩) ∧
    (∀ (e : SingletonEngine) (analyzer : Option AnalyzerFn) (chk : Bool) (id : Str),
      (runPatchedRequire e analyzer chk id).analyzerRan = true →
      (runPatchedRequire e analyzer chk id).analyzerRanWithFlagSet = true) := by
  constructor
  · intro e analyzer id
    rfl
  · intro e analyzer chk id h
    rw [analyzerRan_flag]
    exact h

/-- C7, witness: under the default singleton configuration with a trivial
analyzer, a top-level require of lodash runs the analyzer (with the flag
set), while a reentrant require forwards untouched. -/
theorem claim_C7_witness :
    runPatchedRequire (mkSingletonEngine [] DEFAULT_CONFIG)
        (some (fun _ => ([], none))) true "lodash".toList =
      ⟨false, false, false, ReqOutcome.forwarded, [], true⟩ ∧
    (runPatchedRequire (mkSingletonEngine [] DEFAULT_CONFIG)
        (some (fun _ => ([], none))) false "lodash".toList).analyzerRanWithFlagSet
      = true :=
  ⟨claim_C7.1 (mkSingletonEngine [] DEFAULT_CONFIG)
      (some (fun _ => ([], none))) "lodash".toList,
    claim_C7.2 (mkSingletonEngine [] DEFAULT_CONFIG)
      (some (fun _ => ([], none))) false "lodash".toList (by decide)⟩

/-- C2, counterexample.  Warn mode, blocklist os, default log level, in the
singleton check/handleBlock pipeline consumed by the CJS interceptor: the
require of os is aborted by a thrown SecurityError (the interceptor turns
the false result of check into a throw even in warn mode), and the single
log call that is produced is at warn level, not error level. -/
theorem claim_C2_counterexample :
    (runPatchedRequire
        (mkSingletonEngine ["os".toList]
          ⟨PolicyMode.warn, false, ["os".toList], [], LogLevel.warn⟩)
        none false "os".toList).outcome ≠ ReqOutcome.forwarded ∧
    (runPatchedRequire
        (mkSingletonEngine ["os".toList]
          ⟨PolicyMode.warn, false, ["os".toList], [], LogLevel.warn⟩)
        none false "os".toList).logs.map LogEvent.level = [LogLevel.warn] := by
  decide

/-- C2, amended.  In the evaluate-based pipeline the claim holds: for a
warn-mode block decision (with logging not silent) the installed analyzer
produces exactly one log call, at error level, and throws nothing, and the
interceptor then forwards to the original require whenever the singleton
check passed and the analyzer threw nothing.  In the singleton pipeline
the claim fails: check itself does not raise in warn mode (it logs once at
warn level and returns false), but patchedRequire converts that false into
a thrown SecurityError, so the require aborts even in warn mode. -/
theorem claim_C2 :
    (∀ (e : PolicyEngineState) (m : Str),
      e.policy.mode = PolicyMode.warn →
      (evaluate e m []).action = PolicyAction.block →
      e.policy.loggingLevel ≠ LogLevel.silent →
      (indexAnalyzer e m).1.map LogEvent.level = [LogLevel.error] ∧
        (indexAnalyzer e m).2 = none) ∧
    (∀ (se : SingletonEngine) (f : AnalyzerFn) (id : Str) (lgs : List LogEvent),
      check se id = (Except.ok true, lgs) →
      (f (normalizeNodePrefix id)).2 = none →
      (runPatchedRequire se (some f) false id).outcome = ReqOutcome.forwarded) ∧
    (∀ (se : SingletonEngine) (id : Str) (lgs : List LogEvent),
      se.config.mode = PolicyMode.warn →
      check se id = (Except.ok false, lgs) →
      (runPatchedRequire se none false id).outcome =
        ReqOutcome.threw ⟨"Module ".toList ++ squoteL ++ id ++ squoteL ++
          " is blocked by security policy".toList⟩ ∧
      (runPatchedRequire se none false id).logs = lgs) := by
  refine ⟨?_, ?_, ?_⟩
  · intro e m hmode hact hlv
    have h1 : 1 ≤ levelIndex e.policy.loggingLevel := by
      cases hcase : e.policy.loggingLevel
      · exact absurd hcase hlv
      all_goals simp [levelIndex]
    have hcond : levelIndex LogLevel.error ≤ levelIndex e.policy.loggingLevel ∧
        0 < levelIndex e.policy.loggingLevel :=
      ⟨h1, Nat.lt_of_lt_of_le Nat.zero_lt_one h1⟩
    unfold indexAnalyzer indexLog
    dsimp only
    rw [hact, hmode, if_pos hcond]
    simp
  · intro se f id lgs hcheck hf
    rcases hfm : f (normalizeNodePrefix id) with ⟨alogs, athrown⟩
    have hth : athrown = none := by rw [hfm] at hf; exact hf
    subst hth
    by_cases hrel : isRelativeImport id = true
    · simp [runPatchedRequire, hrel]
    · simp only [Bool.not_eq_true] at hrel
      simp [runPatchedRequire, hrel, hcheck, hfm]
  · intro se id lgs hmode hcheck
    have hrel : isRelativeImport id = false := by
      by_contra hr
      simp only [Bool.not_eq_false] at hr
      rw [check, if_pos hr] at hcheck
      simp at hcheck
    constructor <;> simp [runPatchedRequire, hrel, hcheck]

/-- C2, witness, on the warn-mode blocklist-os scenario of the test suite:
the evaluate-based analyzer logs once at error level and throws nothing;
with the default singleton configuration the require then proceeds; and
the singleton warn-mode pipeline of the counterexample raises instead. -/
theorem claim_C2_witness :
    ((indexAnalyzer
        (mkPolicyEngine ["os".toList]
          ⟨PolicyMode.warn, [], [⟨"os".toList, none, some "blocked but warn only".toList⟩],
            [], false, [], false, LogLevel.error⟩)
        "os".toList).1.map LogEvent.level = [LogLevel.error] ∧
      (indexAnalyzer
        (mkPolicyEngine ["os".toList]
          ⟨PolicyMode.warn, [], [⟨"os".toList, none, some "blocked but warn only".toList⟩],
            [], false, [], false, LogLevel.error⟩)
        "os".toList).2 = none) ∧
    (runPatchedRequire (mkSingletonEngine ["os".toList] DEFAULT_CONFIG)
        (some (indexAnalyzer
          (mkPolicyEngine ["os".toList]
            ⟨PolicyMode.warn, [], [⟨"os".toList, none, some "blocked but warn only".toList⟩],
              [], false, [], false, LogLevel.error⟩)))
        false "os".toList).outcome = ReqOutcome.forwarded ∧
    (runPatchedRequire
        (mkSingletonEngine ["os".toList]
          ⟨PolicyMode.warn, false, ["os".toList], [], LogLevel.warn⟩)
        none false "os".toList).outcome =
      ReqOutcome.threw ⟨"Module ".toList ++ squoteL ++ "os".toList ++ squoteL ++
        " is blocked by security policy".toList⟩ :=
  ⟨claim_C2.1
      (mkPolicyEngine ["os".toList]
        ⟨PolicyMode.warn, [], [⟨"os".toList, none, some "blocked but warn only".toList⟩],
          [], false, [], false, LogLevel.error⟩)
      "os".toList rfl (by decide) (by decide),
    claim_C2.2.1 (mkSingletonEngine ["os".toList] DEFAULT_CONFIG)
      (indexAnalyzer
        (mkPolicyEngine ["os".toList]
          ⟨PolicyMode.warn, [], [⟨"os".toList, none, some "blocked but warn only".toList⟩],
            [], false, [], false, LogLevel.error⟩))
      "os".toList [] (by decide) (by decide),
    (claim_C2.2.2
      (mkSingletonEngine ["os".toList]
        ⟨PolicyMode.warn, false, ["os".toList], [], LogLevel.warn⟩)
      "os".toList
      [⟨LogLevel.warn, "BLOCKED: ".toList ++ "os".toList ++ " - ".toList ++
        ("Package ".toList ++ squoteL ++ "os".toList ++ squoteL ++
          " is explicitly blocked".toList)⟩]
      rfl (by decide)).1⟩

/-- C3.  Evaluation of the patched entry points at the claim's inputs: for
a blocked hostname with a callback, the dns lookup wrapper hands the
SecurityError to the callback synchronously, during the call itself (the
source invokes the callback directly, with no scheduling deferral), while
the fs readFile wrapper defers its callback delivery to a later tick
through process.nextTick.  So the lookup wrapper indeed never throws
synchronously when a callback is present, but the delivery is not on a
later scheduling turn as claimed. -/
theorem claim_C3_code_behavior :
    isBlockedAddress "169.254.169.254".toList = true ∧
    patchedLookup "169.254.169.254".toList true =
      CallOutcome.callbackNow
        ⟨"DNS lookup for ".toList ++ squoteL ++ "169.254.169.254".toList ++
          squoteL ++ " is blocked (cloud metadata endpoint)".toList⟩ ∧
    isBlockedPath (FsPathInput.str ".env".toList) = true ∧
    patchedReadFile (FsPathInput.str ".env".toList) true =
      CallOutcome.callbackDeferred
        (createBlockedFileError (FsPathInput.str ".env".toList)) := by
  decide

/-- C6.  The hook install/uninstall pair round-trips: from an unhooked
state, install, uninstall, install, uninstall leaves the require slot
exactly the handler captured before the first install and retains no
analyzer; a second install while already installed rewrites neither the
require slot nor the captured original (only the analyzer); uninstall
without a prior install is the identity. -/
theorem claim_C6 {H A : Type} (s₀ : ModuleRuntime H A) (p₁ p₂ : H)
    (a₁ a₂ : Option A) (h : s₀.isHooked = false) :
    (restoreRequire (hookRequire p₂ a₂
        (restoreRequire (hookRequire p₁ a₁ s₀)))).requireSlot = s₀.requireSlot ∧
    (restoreRequire (hookRequire p₂ a₂
        (restoreRequire (hookRequire p₁ a₁ s₀)))).analyzerCallback = none ∧
    (∀ s : ModuleRuntime H A, s.isHooked = true →
      (hookRequire p₂ a₂ s).requireSlot = s.requireSlot ∧
      (hookRequire p₂ a₂ s).originalRequire = s.originalRequire ∧
      (hookRequire p₂ a₂ s).isHooked = true) ∧
    (∀ s : ModuleRuntime H A, s.isHooked = false → restoreRequire s = s) := by
  have hrestore : ∀ s : ModuleRuntime H A, s.isHooked = false →
      restoreRequire s = s := by
    intro s hs
    unfold restoreRequire
    cases horig : s.originalRequire
    · rfl
    · rw [hs]
      simp
  have hhooked : ∀ s : ModuleRuntime H A, s.isHooked = true →
      (hookRequire p₂ a₂ s).requireSlot = s.requireSlot ∧
      (hookRequire p₂ a₂ s).originalRequire = s.originalRequire ∧
      (hookRequire p₂ a₂ s).isHooked = true := by
    intro s hs
    unfold hookRequire
    rw [hs]
    simp
  refine ⟨?_, ?_, hhooked, hrestore⟩ <;>
    simp [hookRequire, restoreRequire, h]

/-- C6, witness at a concrete runtime over Nat handlers and analyzers. -/
theorem claim_C6_witness :
    (restoreRequire (hookRequire 2 (some 8)
        (restoreRequire (hookRequire 1 (some 7)
          (⟨0, none, false, false, none⟩ : ModuleRuntime Nat Nat))))).requireSlot = 0 ∧
    (restoreRequire (hookRequire 2 (some 8)
        (restoreRequire (hookRequire 1 (some 7)
          (⟨0, none, false, false, none⟩ : ModuleRuntime Nat Nat))))).analyzerCallback
      = none :=
  ⟨(claim_C6 ⟨0, none, false, false, none⟩ 1 2 (some 7) (some 8) rfl).1,
    (claim_C6 ⟨0, none, false, false, none⟩ 1 2 (some 7) (some 8) rfl).2.1⟩

/-- C8.  File-descriptor-typed inputs are never blocked by the file shield:
isBlockedPath is false on every numeric descriptor, the promise-based
readFile forwards FileHandle arguments without any check, and the patched
sync and callback readFile variants forward descriptor arguments to the
original entry point. -/
theorem claim_C8 :
    (∀ n : Nat, isBlockedPath (FsPathInput.fd n) = false) ∧
    (∀ n : Nat, patchedPromisesReadFile (PromisesReadFileInput.fileHandle n) =
      PromiseOutcome.forwardedToOriginal) ∧
    (∀ n : Nat, patchedReadFileSync (FsPathInput.fd n) =
      CallOutcome.forwardedToOriginal) ∧
    (∀ (n : Nat) (hasCallback : Bool), patchedReadFile (FsPathInput.fd n) hasCallback =
      CallOutcome.forwardedToOriginal) ∧
    (∀ n : Nat, patchedPromisesReadFile
        (PromisesReadFileInput.pathlike (FsPathInput.fd n)) =
      PromiseOutcome.forwardedToOriginal) := by
  refine ⟨fun n => rfl, fun n => rfl, fun n => rfl, fun n hasCallback => rfl,
    fun n => rfl⟩
